import Mathlib

/-!
Verification development for the invoice/quote/delivery-note email
notification job (`src/index.js`).  The program is shallowly embedded:
the MySQL tables become lists of records, every asynchronous I/O
operation (query, insert, update, SMTP send, IMAP serialize / connect /
append) becomes an operation that consults a fault oracle in an
environment and appends an observable event to a trace, and the three
per-document-type loops of `revisarRegistros` are translated loop body
by loop body, preserving the order of the statements of the source.
-/

namespace SendEmail

/-- The raw value of the `docenviado` column: NULL, the empty string, or a
number.  The scan treats 0, NULL and '' as "not yet notified". -/
inductive Enviado where
  | nul : Enviado
  | emp : Enviado
  | num : Nat → Enviado
deriving DecidableEq, Repr

/-- The WHERE clause `docenviado = 0 OR docenviado IS NULL OR docenviado = ''`. -/
def pendiente : Enviado → Bool
  | .nul => true
  | .emp => true
  | .num n => n == 0

/-- A row of the `qdocumento` table.  Dates are encoded as `yyyymmdd`
numbers so that the SQL date comparison becomes a `Nat` comparison. -/
structure Documento where
  doccon : Nat
  docclicod : String
  docenviado : Enviado
  doctip : String
  doceje : Nat
  docser : String
  docnum : Nat
  docfec : Nat
  docimptot : Int
  docusuariocorreo : String
deriving DecidableEq, Repr

/-- A row of the `users` table. -/
structure Usuario where
  id : Nat
  usuclicod : String
  name : Option String
  email : String
deriving DecidableEq, Repr

/-- A row of the `qdocumento_fichero` attachment table. -/
structure Fichero where
  qdocumento_id : Nat
  docfichero : String
deriving DecidableEq, Repr

/-- A row of the `qanet_clienteagenda` subscription table. -/
structure Agenda where
  ageclicod : String
  agefuncion : String
  ageema : Option String
deriving DecidableEq, Repr

/-- A row of the `access_tokens` table (the columns the program writes). -/
structure AccessToken where
  user_id : Nat
  token : String
  expires_at : Nat
deriving DecidableEq, Repr

/-- The database state visible to the job. -/
structure DB where
  documentos : List Documento
  users : List Usuario
  ficheros : List Fichero
  agenda : List Agenda
  accessTokens : List AccessToken
deriving DecidableEq, Repr

/-- One row of a scan query result: the selected columns of
`qdocumento` joined with `qdocumento_fichero` and `users`. -/
structure Row where
  doccon : Nat
  docclicod : String
  docenviado : Enviado
  doceje : Nat
  docser : String
  docnum : Nat
  docfec : Nat
  docimptot : Int
  docusuariocorreo : String
  qdocumento_id : Nat
  docfichero : String
  name : Option String
  email : String
  id : Nat
deriving DecidableEq, Repr

/-- The date floor `'2025-09-02'` of the three scan queries. -/
def dateFloor : Nat := 20250902

/-- Eligibility filter of the scan queries: pending flag, matching
document type, date at or after the floor. -/
def elegible (tip : String) (d : Documento) : Bool :=
  pendiente d.docenviado && (d.doctip == tip) && decide (dateFloor ≤ d.docfec)

/-- Insert into a list sorted by `doccon` descending (`ORDER BY doccon DESC`). -/
def insertarDesc (d : Documento) : List Documento → List Documento
  | [] => [d]
  | x :: xs => if x.doccon < d.doccon then d :: x :: xs else x :: insertarDesc d xs

/-- Sort by `doccon` descending. -/
def ordenarDesc : List Documento → List Documento
  | [] => []
  | d :: ds => insertarDesc d (ordenarDesc ds)

/-- Build a result row from the joined tables. -/
def mkRow (d : Documento) (u : Usuario) (f : Fichero) : Row :=
  { doccon := d.doccon, docclicod := d.docclicod, docenviado := d.docenviado
    doceje := d.doceje, docser := d.docser, docnum := d.docnum
    docfec := d.docfec, docimptot := d.docimptot
    docusuariocorreo := d.docusuariocorreo
    qdocumento_id := f.qdocumento_id, docfichero := f.docfichero
    name := u.name, email := u.email, id := u.id }

/-- One scan query: eligible documents of the given type, newest first,
inner-joined with `users` on the client code and with
`qdocumento_fichero` on the document key.  A document with no matching
user row or no attachment row yields no result row. -/
def consulta (db : DB) (tip : String) : List Row :=
  (ordenarDesc (db.documentos.filter (elegible tip))).flatMap fun d =>
    (db.users.filter (fun u => u.usuclicod == d.docclicod)).flatMap fun u =>
      (db.ficheros.filter (fun f => f.qdocumento_id == d.doccon)).map fun f =>
        mkRow d u f

/-- The subscription query
`SELECT ageema FROM qanet_clienteagenda WHERE ageclicod = ? AND agefuncion IN codes`. -/
def consultaAgenda (db : DB) (clicod : String) (codes : List String) : List Agenda :=
  db.agenda.filter fun a => (a.ageclicod == clicod) && codes.contains a.agefuncion

/-- `.map(r => r.ageema && r.ageema.trim()).filter(e => e && e.length > 0)`:
trim each subscription email, dropping NULL and empty values. -/
def limpiarEmails (xs : List Agenda) : List String :=
  xs.filterMap fun a =>
    match a.ageema with
    | none => none
    | some s => if s.trim = "" then none else some s.trim

/-- `agendadosEmails.length > 0 ? agendadosEmails.join(", ") : row.email`. -/
def recipientsDe (emails : List String) (fallback : String) : String :=
  if emails.length > 0 then String.intercalate ", " emails else fallback

/-- `row.name || "usuario"`. -/
def nombreDe : Option String → String
  | none => "usuario"
  | some s => if s = "" then "usuario" else s

/-- Two-digit zero padding of the es-ES date format. -/
def pad2 (n : Nat) : String := if n < 10 then "0" ++ toString n else toString n

/-- `Intl.DateTimeFormat("es-ES", ...)` on a `yyyymmdd`-encoded date:
`dd/mm/yyyy`. -/
def formatFecha (n : Nat) : String :=
  pad2 (n % 100) ++ "/" ++ pad2 (n / 100 % 100) ++ "/" ++ toString (n / 10000)

/-- One lowercase hexadecimal digit. -/
def hexDigit (n : Nat) : Char :=
  if n < 10 then Char.ofNat (48 + n) else Char.ofNat (87 + n)

/-- Hex encoding of one byte, as `Buffer.toString("hex")` does. -/
def byteToHex (b : Fin 256) : String :=
  String.mk [hexDigit (b.val / 16), hexDigit (b.val % 16)]

/-- `crypto.randomBytes(n).toString("hex")`. -/
def bytesToHex : List (Fin 256) → String
  | [] => ""
  | b :: bs => byteToHex b ++ bytesToHex bs

/-- The three document types processed by the scan, in processing order. -/
inductive Tipo where
  | FC : Tipo
  | PC : Tipo
  | AC : Tipo
deriving DecidableEq, Repr

/-- The `doctip` value of each type. -/
def tipStr : Tipo → String
  | .FC => "FC"
  | .PC => "PC"
  | .AC => "AC"

/-- The purpose codes of the subscription query of each type:
`IN ('4','60')`, `IN ('1','60')`, `IN ('3','60')`. -/
def codesDe : Tipo → List String
  | .FC => ["4", "60"]
  | .PC => ["1", "60"]
  | .AC => ["3", "60"]

/-- The link path segment of each type. -/
def segmento : Tipo → String
  | .FC => "Facturas"
  | .PC => "Presupuestos"
  | .AC => "Albaranes"

/-- The hardcoded notification link of each loop body. -/
def linkDe (t : Tipo) (token : String) : String :=
  match t with
  | .FC => "https://gabinetetic.com/documentos/Facturas?token=" ++ token
  | .PC => "https://gabinetetic.com/documentos/Presupuestos?token=" ++ token
  | .AC => "https://gabinetetic.com/documentos/Albaranes?token=" ++ token

/-- The precompiled template selected by each loop body. -/
inductive TKey where
  | notification : TKey
  | budget : TKey
  | albaran : TKey
deriving DecidableEq, Repr

def tkeyDe : Tipo → TKey
  | .FC => .notification
  | .PC => .budget
  | .AC => .albaran

/-- The fixed field record handed to the template engine. -/
structure Campos where
  nombre : String
  doccon : Nat
  docid : Nat
  doceje : Nat
  docfec : String
  docimptot : Int
  docser : String
  docnum : Nat
  link : String
  docfichero : String
deriving DecidableEq, Repr

/-- A rendered message body: the selected template applied to the field
record.  The template text itself lives outside the repository, so the
rendering is kept abstract as the pair of its inputs. -/
structure Rendered where
  tkey : TKey
  campos : Campos
deriving DecidableEq, Repr

/-- The field record built by each loop body. -/
def camposDe (row : Row) (link : String) : Campos :=
  { nombre := nombreDe row.name, doccon := row.doccon
    docid := row.qdocumento_id, doceje := row.doceje
    docfec := formatFecha row.docfec, docimptot := row.docimptot
    docser := row.docser, docnum := row.docnum
    link := link, docfichero := row.docfichero }

/-- The mail message object handed to `transporter.sendMail`. -/
structure Message where
  fromAddr : String
  toAddr : String
  cc : String
  bcc : String
  subject : String
  html : Rendered
deriving DecidableEq, Repr

/-- The message literal of each loop body. -/
def mensajeDe (mailUser : String) (row : Row) (html : Rendered)
    (recipients : String) : Message :=
  { fromAddr := "\"Redes y Componentes\" <" ++ mailUser ++ ">"
    toAddr := recipients
    cc := "josepozo@redesycomponentes.com, qanet@redesycomponentes.com"
    bcc := row.docusuariocorreo
    subject := "Notificación automática"
    html := html }

/-- Failures an operation can raise: storage (query/insert/update),
dispatch (SMTP), archive (raw serialization). -/
inductive Err where
  | storage : Err
  | dispatch : Err
  | archive : Err
deriving DecidableEq, Repr

/-- Observable events of one scan invocation, in the order they occur. -/
inductive Event where
  | scanQuery : String → Event
  | logNoRecords : Event
  | tokenInsert : Nat → String → Nat → Event
  | flagUpdate : Nat → Event
  | render : Nat → Rendered → Event
  | recipientQuery : String → List String → Event
  | send : Nat → String → Message → Event
  | archiveStart : String → Event
  | logNoArchive : Event
  | rawSerialized : Event
  | imapConnect : Event
  | imapAppend : String → Event
  | imapClose : Event
  | logArchiveError : Event
  | logError : Event
deriving DecidableEq, Repr

/-- The environment: process configuration, the outcomes of the random
and clock sources, the delivery id reported by each send, and one fault
oracle per kind of fallible operation, each indexed by how many
operations of that kind ran before.  `true` means the operation throws. -/
structure Env where
  mailUser : String
  randBytesAt : Nat → List (Fin 256)
  nowAt : Nat → Nat
  sendIdAt : Nat → String
  scanQFail : Nat → Bool
  insFail : Nat → Bool
  updFail : Nat → Bool
  recipFail : Nat → Bool
  sendFail : Nat → Bool
  serialFail : Nat → Bool
  connFail : Nat → Bool
  appFail : Nat → Bool

/-- Per-kind operation counters. -/
structure Ctrs where
  nRow : Nat
  nIns : Nat
  nUpd : Nat
  nRecip : Nat
  nSend : Nat
  nSerial : Nat
  nConn : Nat
  nApp : Nat
deriving DecidableEq, Repr

def ctrs0 : Ctrs := ⟨0, 0, 0, 0, 0, 0, 0, 0⟩

/-- `UPDATE qdocumento SET docenviado = 1 WHERE doccon = ?`. -/
def set1 (d : Documento) : Documento := { d with docenviado := .num 1 }

def actualizarFlag (dc : Nat) (docs : List Documento) : List Documento :=
  docs.map fun d => if d.doccon = dc then set1 d else d

/-- `guardarEnEnviados`: open a fresh IMAP connection, append the raw
message to `INBOX.Sent`, catch and log any error, and always run the
`finally` block that closes the connection. -/
def guardarEnEnviados (env : Env) (c : Ctrs) : List Event × Ctrs :=
  if env.connFail c.nConn then
    ([.logArchiveError, .imapClose], { c with nConn := c.nConn + 1 })
  else
    let c1 : Ctrs := { c with nConn := c.nConn + 1 }
    if env.appFail c1.nApp then
      ([.imapConnect, .logArchiveError, .imapClose], { c1 with nApp := c1.nApp + 1 })
    else
      ([.imapConnect, .imapAppend "INBOX.Sent", .imapClose],
       { c1 with nApp := c1.nApp + 1 })

/-- `generarRaw`: MailComposer serialization, which may reject. -/
def generarRaw (env : Env) (c : Ctrs) : List Event × Ctrs × Option Err :=
  if env.serialFail c.nSerial then
    ([], { c with nSerial := c.nSerial + 1 }, some .archive)
  else
    ([.rawSerialized], { c with nSerial := c.nSerial + 1 }, none)

/-- `procesarGuardadoEnviados`: archive only when the delivery id of the
send is truthy; any serialization error is caught and logged. -/
def procesarGuardadoEnviados (env : Env) (c : Ctrs) (mid : String) :
    List Event × Ctrs :=
  if mid = "" then ([.logNoArchive], c)
  else
    match generarRaw env c with
    | (evs1, c1, some _) => (.archiveStart mid :: evs1 ++ [.logArchiveError], c1)
    | (evs1, c1, none) =>
      let r := guardarEnEnviados env c1
      (.archiveStart mid :: evs1 ++ r.1, r.2)

/-- The outcome of processing a prefix of one result set: updated
database, updated counters, emitted events, and the error that aborted
processing, if any. -/
structure Paso where
  db : DB
  ctr : Ctrs
  evs : List Event
  err : Option Err

/-- The invoice loop body (lines 233-305 of `src/index.js`): token and
link, token insert, flag update, render, subscription query, send,
archive.  Note the flag update comes before the render and the
subscription query in this loop. -/
def procesarFilaFC (env : Env) (c : Ctrs) (db : DB) (row : Row) : Paso :=
  let token := bytesToHex (env.randBytesAt c.nRow)
  let expiresAt := env.nowAt c.nRow + 7 * 24 * 60 * 60 * 1000
  let link := linkDe .FC token
  let c0 : Ctrs := { c with nRow := c.nRow + 1 }
  if env.insFail c0.nIns then
    ⟨db, { c0 with nIns := c0.nIns + 1 }, [], some .storage⟩
  else
    let db1 : DB :=
      { db with accessTokens := db.accessTokens ++ [⟨row.id, token, expiresAt⟩] }
    let c1 : Ctrs := { c0 with nIns := c0.nIns + 1 }
    if env.updFail c1.nUpd then
      ⟨db1, { c1 with nUpd := c1.nUpd + 1 },
       [.tokenInsert row.id token expiresAt], some .storage⟩
    else
      let db2 : DB := { db1 with documentos := actualizarFlag row.doccon db1.documentos }
      let c2 : Ctrs := { c1 with nUpd := c1.nUpd + 1 }
      let html : Rendered := ⟨.notification, camposDe row link⟩
      if env.recipFail c2.nRecip then
        ⟨db2, { c2 with nRecip := c2.nRecip + 1 },
         [.tokenInsert row.id token expiresAt, .flagUpdate row.doccon,
          .render row.doccon html], some .storage⟩
      else
        let emails := limpiarEmails (consultaAgenda db2 row.docclicod (codesDe .FC))
        let recipients := recipientsDe emails row.email
        let msg := mensajeDe env.mailUser row html recipients
        let c3 : Ctrs := { c2 with nRecip := c2.nRecip + 1 }
        if env.sendFail c3.nSend then
          ⟨db2, { c3 with nSend := c3.nSend + 1 },
           [.tokenInsert row.id token expiresAt, .flagUpdate row.doccon,
            .render row.doccon html, .recipientQuery row.docclicod (codesDe .FC)],
           some .dispatch⟩
        else
          let mid := env.sendIdAt c3.nSend
          let c4 : Ctrs := { c3 with nSend := c3.nSend + 1 }
          let r := procesarGuardadoEnviados env c4 mid
          ⟨db2, r.2,
           [.tokenInsert row.id token expiresAt, .flagUpdate row.doccon,
            .render row.doccon html, .recipientQuery row.docclicod (codesDe .FC),
            .send row.doccon mid msg] ++ r.1, none⟩

/-- The quote and delivery-note loop bodies (lines 308-380 and 383-455):
token and link, token insert, subscription query, render, flag update,
send, archive.  Here the subscription query and the render come before
the flag update. -/
def procesarFilaTarde (t : Tipo) (env : Env) (c : Ctrs) (db : DB) (row : Row) : Paso :=
  let token := bytesToHex (env.randBytesAt c.nRow)
  let expiresAt := env.nowAt c.nRow + 7 * 24 * 60 * 60 * 1000
  let link := linkDe t token
  let c0 : Ctrs := { c with nRow := c.nRow + 1 }
  if env.insFail c0.nIns then
    ⟨db, { c0 with nIns := c0.nIns + 1 }, [], some .storage⟩
  else
    let db1 : DB :=
      { db with accessTokens := db.accessTokens ++ [⟨row.id, token, expiresAt⟩] }
    let c1 : Ctrs := { c0 with nIns := c0.nIns + 1 }
    if env.recipFail c1.nRecip then
      ⟨db1, { c1 with nRecip := c1.nRecip + 1 },
       [.tokenInsert row.id token expiresAt], some .storage⟩
    else
      let emails := limpiarEmails (consultaAgenda db1 row.docclicod (codesDe t))
      let html : Rendered := ⟨tkeyDe t, camposDe row link⟩
      let c2 : Ctrs := { c1 with nRecip := c1.nRecip + 1 }
      if env.updFail c2.nUpd then
        ⟨db1, { c2 with nUpd := c2.nUpd + 1 },
         [.tokenInsert row.id token expiresAt,
          .recipientQuery row.docclicod (codesDe t), .render row.doccon html],
         some .storage⟩
      else
        let db2 : DB := { db1 with documentos := actualizarFlag row.doccon db1.documentos }
        let c3 : Ctrs := { c2 with nUpd := c2.nUpd + 1 }
        let recipients := recipientsDe emails row.email
        let msg := mensajeDe env.mailUser row html recipients
        if env.sendFail c3.nSend then
          ⟨db2, { c3 with nSend := c3.nSend + 1 },
           [.tokenInsert row.id token expiresAt,
            .recipientQuery row.docclicod (codesDe t), .render row.doccon html,
            .flagUpdate row.doccon], some .dispatch⟩
        else
          let mid := env.sendIdAt c3.nSend
          let c4 : Ctrs := { c3 with nSend := c3.nSend + 1 }
          let r := procesarGuardadoEnviados env c4 mid
          ⟨db2, r.2,
           [.tokenInsert row.id token expiresAt,
            .recipientQuery row.docclicod (codesDe t), .render row.doccon html,
            .flagUpdate row.doccon, .send row.doccon mid msg] ++ r.1, none⟩

/-- Per-row processing of one document of the given type. -/
def procesarFila : Tipo → Env → Ctrs → DB → Row → Paso
  | .FC => procesarFilaFC
  | .PC => procesarFilaTarde .PC
  | .AC => procesarFilaTarde .AC

/-- One `for (const row of ...)` loop: strictly sequential, and an error
in one row stops the loop (the exception escapes the loop body). -/
def procesarLista (t : Tipo) (env : Env) : List Row → Ctrs → DB → Paso
  | [], c, db => ⟨db, c, [], none⟩
  | row :: rest, c, db =>
    let p := procesarFila t env c db row
    match p.err with
    | some e => ⟨p.db, p.ctr, p.evs, some e⟩
    | none =>
      let q := procesarLista t env rest p.ctr p.db
      ⟨q.db, q.ctr, p.evs ++ q.evs, q.err⟩

/-- The body of the outer `try` of `revisarRegistros`: the three scan
queries, the empty check, and the three sequential loops. -/
def revisarRegistrosCore (env : Env) (db : DB) : DB × List Event × Option Err :=
  if env.scanQFail 0 then (db, [], some .storage)
  else
    let rows := consulta db "FC"
    if env.scanQFail 1 then (db, [.scanQuery "FC"], some .storage)
    else
      let rowsBudget := consulta db "PC"
      if env.scanQFail 2 then (db, [.scanQuery "FC", .scanQuery "PC"], some .storage)
      else
        let rowsAlbaran := consulta db "AC"
        let qevs : List Event := [.scanQuery "FC", .scanQuery "PC", .scanQuery "AC"]
        if rows.isEmpty && rowsBudget.isEmpty && rowsAlbaran.isEmpty then
          (db, qevs ++ [.logNoRecords], none)
        else
          let p1 := procesarLista .FC env rows ctrs0 db
          match p1.err with
          | some e => (p1.db, qevs ++ p1.evs, some e)
          | none =>
            let p2 := procesarLista .PC env rowsBudget p1.ctr p1.db
            match p2.err with
            | some e => (p2.db, qevs ++ p1.evs ++ p2.evs, some e)
            | none =>
              let p3 := procesarLista .AC env rowsAlbaran p2.ctr p2.db
              (p3.db, qevs ++ p1.evs ++ p2.evs ++ p3.evs, p3.err)

/-- `revisarRegistros`: the whole scan, with the outer `catch` that logs
any escaped error and returns normally. -/
def revisarRegistros (env : Env) (db : DB) : DB × List Event :=
  match revisarRegistrosCore env db with
  | (db1, evs, none) => (db1, evs)
  | (db1, evs, some _) => (db1, evs ++ [.logError])

/-! ### Trace measurements -/

/-- Is this event a send for document `dc`? -/
def esSendDe (dc : Nat) : Event → Bool
  | .send dc' _ _ => dc' == dc
  | _ => false

/-- Number of notification emails sent for document `dc` in a trace. -/
def countSends (dc : Nat) (tr : List Event) : Nat :=
  (tr.filter (esSendDe dc)).length

/-- The document keys whose flag-update statement ran, in order. -/
def updsDe (tr : List Event) : List Nat :=
  tr.filterMap fun e => match e with | .flagUpdate dc => some dc | _ => none

/-- The delivery ids reported by the sends of a trace, in order. -/
def sendIds (tr : List Event) : List String :=
  tr.filterMap fun e => match e with | .send _ mid _ => some mid | _ => none

/-- The delivery ids for which the archive step was entered, in order. -/
def archiveIds (tr : List Event) : List String :=
  tr.filterMap fun e => match e with | .archiveStart mid => some mid | _ => none

/-- Apply the recorded flag updates to a documents table. -/
def aplicarUpds (us : List Nat) (docs : List Documento) : List Documento :=
  docs.map fun d => if d.doccon ∈ us then set1 d else d

/-- Scan a trace left to right carrying the set of document keys already
flagged; every send must be for an already-flagged document. -/
def checkSends (s : List Nat) : List Event → Bool
  | [] => true
  | .flagUpdate dc :: rest => checkSends (dc :: s) rest
  | .send dc _ _ :: rest => decide (dc ∈ s) && checkSends s rest
  | _ :: rest => checkSends s rest

/-- The flagged-key accumulator after scanning a trace. -/
def updAcc (s : List Nat) (tr : List Event) : List Nat :=
  tr.foldl (fun s e => match e with | .flagUpdate dc => dc :: s | _ => s) s

/-- No fault at any storage or dispatch operation; the archive-side
oracles are unconstrained. -/
def noFaultCore (env : Env) : Prop :=
  (∀ n, env.scanQFail n = false) ∧ (∀ n, env.insFail n = false) ∧
  (∀ n, env.updFail n = false) ∧ (∀ n, env.recipFail n = false) ∧
  (∀ n, env.sendFail n = false)

/-- No fault at any operation at all. -/
def noFault (env : Env) : Prop :=
  noFaultCore env ∧ (∀ n, env.serialFail n = false) ∧
  (∀ n, env.connFail n = false) ∧ (∀ n, env.appFail n = false)

/-! ### Generic trace lemmas -/

theorem countSends_append (dc : Nat) (a b : List Event) :
    countSends dc (a ++ b) = countSends dc a + countSends dc b := by
  simp [countSends, List.filter_append]

theorem updsDe_append (a b : List Event) :
    updsDe (a ++ b) = updsDe a ++ updsDe b := by
  simp [updsDe, List.filterMap_append]

theorem sendIds_append (a b : List Event) :
    sendIds (a ++ b) = sendIds a ++ sendIds b := by
  simp [sendIds, List.filterMap_append]

theorem archiveIds_append (a b : List Event) :
    archiveIds (a ++ b) = archiveIds a ++ archiveIds b := by
  simp [archiveIds, List.filterMap_append]

theorem checkSends_append (a b : List Event) (s : List Nat) :
    checkSends s (a ++ b) = (checkSends s a && checkSends (updAcc s a) b) := by
  induction a generalizing s with
  | nil => simp [checkSends, updAcc]
  | cons e rest ih =>
    cases e <;>
      simp [checkSends, updAcc, ih, List.foldl_cons, Bool.and_assoc]

theorem updAcc_append (a b : List Event) (s : List Nat) :
    updAcc s (a ++ b) = updAcc (updAcc s a) b := by
  simp [updAcc, List.foldl_append]

theorem set1_doccon (d : Documento) : (set1 d).doccon = d.doccon := rfl

theorem aplicarUpds_nil (docs : List Documento) : aplicarUpds [] docs = docs := by
  simp [aplicarUpds]

theorem aplicarUpds_aplicarUpds (us vs : List Nat) (docs : List Documento) :
    aplicarUpds vs (aplicarUpds us docs) = aplicarUpds (us ++ vs) docs := by
  simp only [aplicarUpds, List.map_map]
  refine List.map_congr_left fun d _ => ?_
  by_cases hus : d.doccon ∈ us
  · by_cases hvs : d.doccon ∈ vs <;>
      simp [hus, hvs, set1, List.mem_append]
  · by_cases hvs : d.doccon ∈ vs <;>
      simp [hus, hvs, List.mem_append]

theorem actualizarFlag_eq_aplicar (dc : Nat) (docs : List Documento) :
    actualizarFlag dc docs = aplicarUpds [dc] docs := by
  simp [actualizarFlag, aplicarUpds]

/-! ### Archive-step lemmas -/

theorem guardar_getLast (env : Env) (c : Ctrs) :
    ((guardarEnEnviados env c).1).getLast? = some .imapClose := by
  simp only [guardarEnEnviados]
  split
  · rfl
  · split <;> rfl

theorem guardar_countSends (env : Env) (c : Ctrs) (dc : Nat) :
    countSends dc (guardarEnEnviados env c).1 = 0 := by
  simp only [guardarEnEnviados]
  split
  · simp [countSends, esSendDe]
  · split <;> simp [countSends, esSendDe]

theorem guardar_updsDe (env : Env) (c : Ctrs) :
    updsDe (guardarEnEnviados env c).1 = [] := by
  simp only [guardarEnEnviados]
  split
  · simp [updsDe]
  · split <;> simp [updsDe]

theorem guardar_sendIds (env : Env) (c : Ctrs) :
    sendIds (guardarEnEnviados env c).1 = [] := by
  simp only [guardarEnEnviados]
  split
  · simp [sendIds]
  · split <;> simp [sendIds]

theorem guardar_archiveIds (env : Env) (c : Ctrs) :
    archiveIds (guardarEnEnviados env c).1 = [] := by
  simp only [guardarEnEnviados]
  split
  · simp [archiveIds]
  · split <;> simp [archiveIds]

theorem guardar_checkSends (env : Env) (c : Ctrs) (s : List Nat) :
    checkSends s (guardarEnEnviados env c).1 = true := by
  simp only [guardarEnEnviados]
  split
  · simp [checkSends]
  · split <;> simp [checkSends]

theorem pge_countSends (env : Env) (c : Ctrs) (mid : String) (dc : Nat) :
    countSends dc (procesarGuardadoEnviados env c mid).1 = 0 := by
  simp only [procesarGuardadoEnviados, generarRaw]
  by_cases hm : mid = ""
  · simp [hm, countSends, esSendDe]
  · by_cases hs : env.serialFail c.nSerial = true
    · simp [hm, hs, countSends, esSendDe]
    · simp only [hm, hs, if_false, if_neg, Bool.false_eq_true, ite_false]
      simp [countSends, List.filter_cons, esSendDe]
      simpa [countSends] using
        guardar_countSends env { c with nSerial := c.nSerial + 1 } dc

theorem pge_updsDe (env : Env) (c : Ctrs) (mid : String) :
    updsDe (procesarGuardadoEnviados env c mid).1 = [] := by
  simp only [procesarGuardadoEnviados, generarRaw]
  by_cases hm : mid = ""
  · simp [hm, updsDe]
  · by_cases hs : env.serialFail c.nSerial = true
    · simp [hm, hs, updsDe]
    · simp only [hm, hs, Bool.false_eq_true, ite_false]
      simp [updsDe, List.filterMap_cons]
      simpa [updsDe] using guardar_updsDe env { c with nSerial := c.nSerial + 1 }

theorem pge_sendIds (env : Env) (c : Ctrs) (mid : String) :
    sendIds (procesarGuardadoEnviados env c mid).1 = [] := by
  simp only [procesarGuardadoEnviados, generarRaw]
  by_cases hm : mid = ""
  · simp [hm, sendIds]
  · by_cases hs : env.serialFail c.nSerial = true
    · simp [hm, hs, sendIds]
    · simp only [hm, hs, Bool.false_eq_true, ite_false]
      simp [sendIds, List.filterMap_cons]
      simpa [sendIds] using guardar_sendIds env { c with nSerial := c.nSerial + 1 }

theorem pge_archiveIds (env : Env) (c : Ctrs) (mid : String) :
    archiveIds (procesarGuardadoEnviados env c mid).1 =
      if mid = "" then [] else [mid] := by
  simp only [procesarGuardadoEnviados, generarRaw]
  by_cases hm : mid = ""
  · simp [hm, archiveIds]
  · by_cases hs : env.serialFail c.nSerial = true
    · simp [hm, hs, archiveIds]
    · simp only [hm, hs, Bool.false_eq_true, ite_false]
      simp [archiveIds, List.filterMap_cons]
      simpa [archiveIds] using
        guardar_archiveIds env { c with nSerial := c.nSerial + 1 }

theorem pge_checkSends (env : Env) (c : Ctrs) (mid : String) (s : List Nat) :
    checkSends s (procesarGuardadoEnviados env c mid).1 = true := by
  simp only [procesarGuardadoEnviados, generarRaw]
  by_cases hm : mid = ""
  · simp [hm, checkSends]
  · by_cases hs : env.serialFail c.nSerial = true
    · simp [hm, hs, checkSends]
    · simp only [hm, hs, Bool.false_eq_true, ite_false]
      simp [checkSends]
      simpa using guardar_checkSends env { c with nSerial := c.nSerial + 1 } s

theorem pge_updsDe' (env : Env) (c : Ctrs) (mid : String) :
    List.filterMap
      (fun e => match e with | Event.flagUpdate dc => some dc | _ => none)
      (procesarGuardadoEnviados env c mid).1 = [] := by
  simpa [updsDe] using pge_updsDe env c mid

theorem pge_sendIds' (env : Env) (c : Ctrs) (mid : String) :
    List.filterMap
      (fun e => match e with | Event.send _ m _ => some m | _ => none)
      (procesarGuardadoEnviados env c mid).1 = [] := by
  simpa [sendIds] using pge_sendIds env c mid

theorem pge_archiveIds' (env : Env) (c : Ctrs) (mid : String) :
    List.filterMap
      (fun e => match e with | Event.archiveStart m => some m | _ => none)
      (procesarGuardadoEnviados env c mid).1 =
      if mid = "" then [] else [mid] := by
  simpa [archiveIds] using pge_archiveIds env c mid

theorem pge_countSends' (env : Env) (c : Ctrs) (mid : String) (dc : Nat) :
    List.filter (esSendDe dc) (procesarGuardadoEnviados env c mid).1 = [] := by
  have h := pge_countSends env c mid dc
  simpa [countSends, List.length_eq_zero] using h

/-! ### Per-row lemmas

Abbreviations naming the values a fault-free row computes; each is a
transparent shorthand for an expression of the embedded program. -/

/-- The token of the row started at counter state `c`. -/
def tokenEn (env : Env) (c : Ctrs) : String := bytesToHex (env.randBytesAt c.nRow)

/-- The expiry of that token: issuance time plus 7 days in milliseconds. -/
def expiraEn (env : Env) (c : Ctrs) : Nat :=
  env.nowAt c.nRow + 7 * 24 * 60 * 60 * 1000

/-- The rendered body of a row of the given type. -/
def htmlDe (t : Tipo) (row : Row) (token : String) : Rendered :=
  ⟨tkeyDe t, camposDe row (linkDe t token)⟩

/-- The cleaned subscription emails of a row of the given type. -/
def emailsDe (t : Tipo) (db : DB) (row : Row) : List String :=
  limpiarEmails (consultaAgenda db row.docclicod (codesDe t))

/-- The message a fault-free row of the given type sends. -/
def msgDe (t : Tipo) (env : Env) (db : DB) (row : Row) : Message :=
  mensajeDe env.mailUser row (htmlDe t row (tokenEn env (Ctrs.mk 0 0 0 0 0 0 0 0)))
    (recipientsDe (emailsDe t db row) row.email)

/-- Counters after the five core operations of one row. -/
def cTras (c : Ctrs) : Ctrs :=
  { c with nRow := c.nRow + 1, nIns := c.nIns + 1, nUpd := c.nUpd + 1,
           nRecip := c.nRecip + 1, nSend := c.nSend + 1 }

/-- Database after the token insert and the flag update of one row. -/
def dbTras (env : Env) (c : Ctrs) (db : DB) (row : Row) : DB :=
  { db with documentos := actualizarFlag row.doccon db.documentos,
            accessTokens := db.accessTokens ++ [⟨row.id, tokenEn env c, expiraEn env c⟩] }

/-- The message of a fault-free row given its starting counters. -/
def msgEn (t : Tipo) (env : Env) (c : Ctrs) (db : DB) (row : Row) : Message :=
  mensajeDe env.mailUser row (htmlDe t row (tokenEn env c))
    (recipientsDe (emailsDe t db row) row.email)

/-- The core events of a fault-free row, exhibiting the per-type order of
the loop bodies: the invoice loop flips the flag right after the token
insert, the quote and delivery-note loops flip it after the subscription
query and the render. -/
def evsNF : Tipo → Env → Ctrs → DB → Row → List Event
  | .FC, env, c, db, row =>
    [.tokenInsert row.id (tokenEn env c) (expiraEn env c), .flagUpdate row.doccon,
     .render row.doccon (htmlDe .FC row (tokenEn env c)),
     .recipientQuery row.docclicod (codesDe .FC),
     .send row.doccon (env.sendIdAt c.nSend) (msgEn .FC env c db row)]
  | t, env, c, db, row =>
    [.tokenInsert row.id (tokenEn env c) (expiraEn env c),
     .recipientQuery row.docclicod (codesDe t),
     .render row.doccon (htmlDe t row (tokenEn env c)), .flagUpdate row.doccon,
     .send row.doccon (env.sendIdAt c.nSend) (msgEn t env c db row)]

theorem tokensExt (l : List AccessToken) : ∃ nt, l = l ++ nt := ⟨[], by simp⟩

theorem tokensExt1 (l : List AccessToken) (a : AccessToken) :
    ∃ nt, l ++ [a] = l ++ nt := ⟨[a], rfl⟩

/-- A fault-free row runs all five core operations in the order of its
loop body, flips the flag, appends exactly one token row, sends exactly
one message, and then runs the archive step on the reported delivery id. -/
theorem fila_nf (t : Tipo) (env : Env) (c : Ctrs) (db : DB) (row : Row)
    (h : noFaultCore env) :
    procesarFila t env c db row =
      ⟨dbTras env c db row,
       (procesarGuardadoEnviados env (cTras c) (env.sendIdAt c.nSend)).2,
       evsNF t env c db row ++
         (procesarGuardadoEnviados env (cTras c) (env.sendIdAt c.nSend)).1,
       none⟩ := by
  obtain ⟨h1, h2, h3, h4, h5⟩ := h
  cases t <;>
    simp [procesarFila, procesarFilaFC, procesarFilaTarde, h2, h3, h4, h5,
      dbTras, cTras, tokenEn, expiraEn, evsNF, msgEn, htmlDe, emailsDe,
      consultaAgenda, tkeyDe]

/-- Whatever the fault pattern, a row only ever flips the flags its trace
records, never touches the other tables, and only appends token rows. -/
theorem fila_evol (t : Tipo) (env : Env) (c : Ctrs) (db : DB) (row : Row) :
    ((procesarFila t env c db row).db.documentos =
        aplicarUpds (updsDe (procesarFila t env c db row).evs) db.documentos) ∧
    (procesarFila t env c db row).db.users = db.users ∧
    (procesarFila t env c db row).db.ficheros = db.ficheros ∧
    (procesarFila t env c db row).db.agenda = db.agenda ∧
    ∃ nt, (procesarFila t env c db row).db.accessTokens = db.accessTokens ++ nt := by
  cases t <;>
  · simp only [procesarFila, procesarFilaFC, procesarFilaTarde]
    split
    · simp [updsDe, aplicarUpds_nil, tokensExt, tokensExt1]
    · split
      · simp [updsDe, aplicarUpds_nil, tokensExt, tokensExt1]
      · split
        · simp [updsDe, aplicarUpds_nil, actualizarFlag_eq_aplicar,
            tokensExt, tokensExt1]
        · split
          · simp [updsDe, aplicarUpds_nil, actualizarFlag_eq_aplicar,
              tokensExt, tokensExt1]
          · simp [updsDe, updsDe_append, pge_updsDe, pge_updsDe',
              aplicarUpds_nil, actualizarFlag_eq_aplicar, tokensExt, tokensExt1]

/-- In every trace a row can produce, each send is preceded by the flag
update of the same document. -/
theorem fila_checkSends (t : Tipo) (env : Env) (c : Ctrs) (db : DB) (row : Row)
    (s : List Nat) :
    checkSends s (procesarFila t env c db row).evs = true := by
  cases t <;>
  · simp only [procesarFila, procesarFilaFC, procesarFilaTarde]
    split
    · simp [checkSends]
    · split
      · simp [checkSends]
      · split
        · simp [checkSends]
        · split
          · simp [checkSends]
          · simp [checkSends, pge_checkSends]

/-- In every trace a row can produce, the archive step is entered exactly
for the non-empty delivery ids of the sends. -/
theorem fila_arch (t : Tipo) (env : Env) (c : Ctrs) (db : DB) (row : Row) :
    archiveIds (procesarFila t env c db row).evs =
      (sendIds (procesarFila t env c db row).evs).filter (fun x => !(x == "")) := by
  cases t <;>
  · simp only [procesarFila, procesarFilaFC, procesarFilaTarde]
    split
    · simp [archiveIds, sendIds]
    · split
      · simp [archiveIds, sendIds]
      · split
        · simp [archiveIds, sendIds]
        · split
          · simp [archiveIds, sendIds]
          · simp [archiveIds, sendIds, archiveIds_append, sendIds_append,
              pge_archiveIds, pge_sendIds, List.filter_cons]
            split <;> simp_all [pge_archiveIds', pge_sendIds']

/-! ### Loop-level lemmas -/

theorem countSends_evsNF (t : Tipo) (env : Env) (c : Ctrs) (db : DB) (row : Row)
    (dc : Nat) :
    countSends dc (evsNF t env c db row) = if row.doccon = dc then 1 else 0 := by
  cases t <;> simp [evsNF, countSends, esSendDe, List.filter_cons] <;>
    split <;> simp_all

theorem updsDe_evsNF (t : Tipo) (env : Env) (c : Ctrs) (db : DB) (row : Row) :
    updsDe (evsNF t env c db row) = [row.doccon] := by
  cases t <;> simp [evsNF, updsDe]

theorem lista_evol (t : Tipo) (env : Env) (rows : List Row) :
    ∀ (c : Ctrs) (db : DB),
    ((procesarLista t env rows c db).db.documentos =
        aplicarUpds (updsDe (procesarLista t env rows c db).evs) db.documentos) ∧
    (procesarLista t env rows c db).db.users = db.users ∧
    (procesarLista t env rows c db).db.ficheros = db.ficheros ∧
    (procesarLista t env rows c db).db.agenda = db.agenda ∧
    ∃ nt, (procesarLista t env rows c db).db.accessTokens = db.accessTokens ++ nt := by
  induction rows with
  | nil =>
    intro c db
    simp [procesarLista, updsDe, aplicarUpds_nil, tokensExt]
  | cons row rest ih =>
    intro c db
    obtain ⟨h1, h2, h3, h4, nt, h5⟩ := fila_evol t env c db row
    simp only [procesarLista]
    cases herr : (procesarFila t env c db row).err with
    | some e =>
      simp only [herr]
      exact ⟨h1, h2, h3, h4, nt, h5⟩
    | none =>
      simp only [herr]
      obtain ⟨g1, g2, g3, g4, nt2, g5⟩ :=
        ih (procesarFila t env c db row).ctr (procesarFila t env c db row).db
      refine ⟨?_, by rw [g2, h2], by rw [g3, h3], by rw [g4, h4],
        nt ++ nt2, by rw [g5, h5, List.append_assoc]⟩
      rw [g1, h1, aplicarUpds_aplicarUpds, ← updsDe_append]

theorem lista_checkSends (t : Tipo) (env : Env) (rows : List Row) :
    ∀ (c : Ctrs) (db : DB) (s : List Nat),
    checkSends s (procesarLista t env rows c db).evs = true := by
  induction rows with
  | nil => intro c db s; simp [procesarLista, checkSends]
  | cons row rest ih =>
    intro c db s
    simp only [procesarLista]
    cases herr : (procesarFila t env c db row).err with
    | some e =>
      simp only [herr]
      exact fila_checkSends t env c db row s
    | none =>
      simp only [herr]
      rw [checkSends_append]
      simp [fila_checkSends, ih]

theorem lista_arch (t : Tipo) (env : Env) (rows : List Row) :
    ∀ (c : Ctrs) (db : DB),
    archiveIds (procesarLista t env rows c db).evs =
      (sendIds (procesarLista t env rows c db).evs).filter (fun x => !(x == "")) := by
  induction rows with
  | nil => intro c db; simp [procesarLista, archiveIds, sendIds]
  | cons row rest ih =>
    intro c db
    simp only [procesarLista]
    cases herr : (procesarFila t env c db row).err with
    | some e =>
      simp only [herr]
      exact fila_arch t env c db row
    | none =>
      simp only [herr]
      rw [archiveIds_append, sendIds_append, List.filter_append,
        fila_arch t env c db row, ih]

theorem lista_arch' (t : Tipo) (env : Env) (rows : List Row) (c : Ctrs) (db : DB) :
    List.filterMap
      (fun e => match e with | Event.archiveStart m => some m | _ => none)
      (procesarLista t env rows c db).evs =
    List.filter (fun x => !(x == ""))
      (List.filterMap
        (fun e => match e with | Event.send _ m _ => some m | _ => none)
        (procesarLista t env rows c db).evs) := by
  simpa [archiveIds, sendIds] using lista_arch t env rows c db

theorem lista_nf (t : Tipo) (env : Env) (h : noFaultCore env) (rows : List Row) :
    ∀ (c : Ctrs) (db : DB),
    (procesarLista t env rows c db).err = none ∧
    (∀ dc, countSends dc (procesarLista t env rows c db).evs =
      (rows.filter (fun r => r.doccon = dc)).length) ∧
    updsDe (procesarLista t env rows c db).evs = rows.map (fun r => r.doccon) := by
  induction rows with
  | nil => intro c db; simp [procesarLista, countSends, updsDe]
  | cons row rest ih =>
    intro c db
    simp only [procesarLista, fila_nf t env c db row h]
    obtain ⟨ih1, ih2, ih3⟩ :=
      ih (procesarGuardadoEnviados env (cTras c) (env.sendIdAt c.nSend)).2
        (dbTras env c db row)
    refine ⟨by simpa using ih1, fun dc => ?_, ?_⟩
    · simp only [countSends_append, List.filter_cons]
      rw [countSends_evsNF]
      have hp := pge_countSends env (cTras c) (env.sendIdAt c.nSend) dc
      simp only [hp]
      rw [show countSends dc
        (procesarLista t env rest
          (procesarGuardadoEnviados env (cTras c) (env.sendIdAt c.nSend)).2
          (dbTras env c db row)).evs =
        (rest.filter (fun r => r.doccon = dc)).length from ih2 dc]
      by_cases hdc : row.doccon = dc <;> simp [hdc, Nat.add_comm]
    · simp only [updsDe_append, updsDe_evsNF, pge_updsDe, List.map_cons]
      simpa using ih3

/-! ### Scan-level lemmas -/

/-- The combined result set of one scan invocation: invoices, then
quotes, then delivery notes. -/
def resultado (db : DB) : List Row :=
  consulta db "FC" ++ consulta db "PC" ++ consulta db "AC"

/-- How a piece of the program evolves the database, as a function of the
trace it emitted: it applies exactly the recorded flag updates, appends
token rows, and touches nothing else. -/
def Evol (db db1 : DB) (evs : List Event) : Prop :=
  (db1.documentos = aplicarUpds (updsDe evs) db.documentos) ∧
  db1.users = db.users ∧ db1.ficheros = db.ficheros ∧ db1.agenda = db.agenda ∧
  ∃ nt, db1.accessTokens = db.accessTokens ++ nt

theorem evol_inert {db : DB} {evs : List Event} (h : updsDe evs = []) :
    Evol db db evs :=
  ⟨by simp [h, aplicarUpds_nil], rfl, rfl, rfl, tokensExt _⟩

theorem evol_comp {db db1 db2 : DB} {evs1 evs2 : List Event}
    (h : Evol db db1 evs1) (g : Evol db1 db2 evs2) :
    Evol db db2 (evs1 ++ evs2) := by
  obtain ⟨h1, h2, h3, h4, nt, h5⟩ := h
  obtain ⟨g1, g2, g3, g4, nt2, g5⟩ := g
  refine ⟨?_, by rw [g2, h2], by rw [g3, h3], by rw [g4, h4],
    nt ++ nt2, by rw [g5, h5, List.append_assoc]⟩
  rw [g1, h1, aplicarUpds_aplicarUpds, ← updsDe_append]

theorem evol_pre {db db1 : DB} {pre evs : List Event} (hp : updsDe pre = [])
    (h : Evol db db1 evs) : Evol db db1 (pre ++ evs) :=
  evol_comp (evol_inert hp) h

theorem lista_evol' (t : Tipo) (env : Env) (rows : List Row) (c : Ctrs) (db : DB) :
    Evol db (procesarLista t env rows c db).db (procesarLista t env rows c db).evs :=
  lista_evol t env rows c db

theorem core_evol (env : Env) (db : DB) :
    Evol db (revisarRegistrosCore env db).1 (revisarRegistrosCore env db).2.1 := by
  simp only [revisarRegistrosCore]
  split
  · exact evol_inert (by simp [updsDe])
  · split
    · exact evol_inert (by simp [updsDe])
    · split
      · exact evol_inert (by simp [updsDe])
      · split
        · exact evol_inert (by simp [updsDe])
        · cases h1 : (procesarLista .FC env (consulta db "FC") ctrs0 db).err with
          | some e =>
            simp only [h1]
            exact evol_pre (by simp [updsDe]) (lista_evol' .FC env _ _ _)
          | none =>
            cases h2 : (procesarLista .PC env (consulta db "PC")
                (procesarLista .FC env (consulta db "FC") ctrs0 db).ctr
                (procesarLista .FC env (consulta db "FC") ctrs0 db).db).err with
            | some e =>
              simp only [h1, h2]
              rw [List.append_assoc]
              exact evol_pre (by simp [updsDe])
                (evol_comp (lista_evol' .FC env _ _ _) (lista_evol' .PC env _ _ _))
            | none =>
              simp only [h1, h2]
              rw [List.append_assoc, List.append_assoc]
              exact evol_pre (by simp [updsDe])
                (evol_comp (lista_evol' .FC env _ _ _)
                  (evol_comp (lista_evol' .PC env _ _ _) (lista_evol' .AC env _ _ _)))

theorem core_checkSends (env : Env) (db : DB) (s : List Nat) :
    checkSends s (revisarRegistrosCore env db).2.1 = true := by
  simp only [revisarRegistrosCore]
  split
  · simp [checkSends]
  · split
    · simp [checkSends]
    · split
      · simp [checkSends]
      · split
        · simp [checkSends]
        · cases h1 : (procesarLista .FC env (consulta db "FC") ctrs0 db).err with
          | some e =>
            simp only [h1]
            simp [checkSends, lista_checkSends]
          | none =>
            cases h2 : (procesarLista .PC env (consulta db "PC")
                (procesarLista .FC env (consulta db "FC") ctrs0 db).ctr
                (procesarLista .FC env (consulta db "FC") ctrs0 db).db).err with
            | some e =>
              simp only [h1, h2]
              simp only [List.append_assoc, List.cons_append, List.nil_append]
              simp [checkSends, checkSends_append, lista_checkSends]
            | none =>
              simp only [h1, h2]
              simp only [List.append_assoc, List.cons_append, List.nil_append]
              simp [checkSends, checkSends_append, lista_checkSends]

theorem core_arch (env : Env) (db : DB) :
    archiveIds (revisarRegistrosCore env db).2.1 =
      (sendIds (revisarRegistrosCore env db).2.1).filter (fun x => !(x == "")) := by
  simp only [revisarRegistrosCore]
  split
  · simp [archiveIds, sendIds]
  · split
    · simp [archiveIds, sendIds]
    · split
      · simp [archiveIds, sendIds]
      · split
        · simp [archiveIds, sendIds]
        · cases h1 : (procesarLista .FC env (consulta db "FC") ctrs0 db).err with
          | some e =>
            simp only [h1]
            simp [archiveIds, sendIds, lista_arch, lista_arch']
          | none =>
            cases h2 : (procesarLista .PC env (consulta db "PC")
                (procesarLista .FC env (consulta db "FC") ctrs0 db).ctr
                (procesarLista .FC env (consulta db "FC") ctrs0 db).db).err with
            | some e =>
              simp only [h1, h2]
              simp [archiveIds, sendIds, archiveIds_append, sendIds_append,
                List.filter_append, lista_arch, lista_arch']
            | none =>
              simp only [h1, h2]
              simp [archiveIds, sendIds, archiveIds_append, sendIds_append,
                List.filter_append, lista_arch, lista_arch']

theorem core_nf (env : Env) (db : DB) (h : noFaultCore env) :
    (revisarRegistrosCore env db).2.2 = none ∧
    (∀ dc, countSends dc (revisarRegistrosCore env db).2.1 =
      ((resultado db).filter (fun r => r.doccon = dc)).length) ∧
    updsDe (revisarRegistrosCore env db).2.1 =
      (resultado db).map (fun r => r.doccon) := by
  have hq := h.1
  simp only [revisarRegistrosCore, hq, Bool.false_eq_true, ite_false]
  split
  · next hemp =>
    simp only [Bool.and_eq_true, List.isEmpty_iff] at hemp
    obtain ⟨⟨e1, e2⟩, e3⟩ := hemp
    simp [resultado, e1, e2, e3, countSends, esSendDe, updsDe]
  · obtain ⟨f1, f2, f3⟩ := lista_nf .FC env h (consulta db "FC") ctrs0 db
    simp only [f1]
    obtain ⟨g1, g2, g3⟩ := lista_nf .PC env h (consulta db "PC")
      (procesarLista .FC env (consulta db "FC") ctrs0 db).ctr
      (procesarLista .FC env (consulta db "FC") ctrs0 db).db
    simp only [g1]
    obtain ⟨a1, a2, a3⟩ := lista_nf .AC env h (consulta db "AC")
      (procesarLista .PC env (consulta db "PC")
        (procesarLista .FC env (consulta db "FC") ctrs0 db).ctr
        (procesarLista .FC env (consulta db "FC") ctrs0 db).db).ctr
      (procesarLista .PC env (consulta db "PC")
        (procesarLista .FC env (consulta db "FC") ctrs0 db).ctr
        (procesarLista .FC env (consulta db "FC") ctrs0 db).db).db
    refine ⟨a1, fun dc => ?_, ?_⟩
    · rw [countSends_append, countSends_append, countSends_append]
      rw [f2 dc, g2 dc, a2 dc]
      have hz : countSends dc
          [Event.scanQuery "FC", Event.scanQuery "PC", Event.scanQuery "AC"] = 0 := by
        simp [countSends, esSendDe]
      rw [hz]
      simp [resultado, List.filter_append]
      omega
    · rw [updsDe_append, updsDe_append, updsDe_append]
      rw [f3, g3, a3]
      have hz : updsDe
          [Event.scanQuery "FC", Event.scanQuery "PC", Event.scanQuery "AC"] = [] := by
        simp [updsDe]
      rw [hz]
      simp [resultado]

/-! ### Wrapper lemmas for the outer catch -/

theorem revisar_db (env : Env) (db : DB) :
    (revisarRegistros env db).1 = (revisarRegistrosCore env db).1 := by
  simp only [revisarRegistros]
  rcases hc : revisarRegistrosCore env db with ⟨db1, evs, err⟩
  cases err <;> simp

theorem revisar_countSends (env : Env) (db : DB) (dc : Nat) :
    countSends dc (revisarRegistros env db).2 =
      countSends dc (revisarRegistrosCore env db).2.1 := by
  simp only [revisarRegistros]
  rcases hc : revisarRegistrosCore env db with ⟨db1, evs, err⟩
  cases err <;> simp [countSends_append, countSends, esSendDe]

theorem revisar_updsDe (env : Env) (db : DB) :
    updsDe (revisarRegistros env db).2 = updsDe (revisarRegistrosCore env db).2.1 := by
  simp only [revisarRegistros]
  rcases hc : revisarRegistrosCore env db with ⟨db1, evs, err⟩
  cases err <;> simp [updsDe_append, updsDe]

theorem revisar_checkSends (env : Env) (db : DB) (s : List Nat) :
    checkSends s (revisarRegistros env db).2 = true := by
  simp only [revisarRegistros]
  rcases hc : revisarRegistrosCore env db with ⟨db1, evs, err⟩
  have h := core_checkSends env db s
  rw [hc] at h
  cases err <;> simp_all [checkSends_append, checkSends]

theorem revisar_arch (env : Env) (db : DB) :
    archiveIds (revisarRegistros env db).2 =
      (sendIds (revisarRegistros env db).2).filter (fun x => !(x == "")) := by
  simp only [revisarRegistros]
  rcases hc : revisarRegistrosCore env db with ⟨db1, evs, err⟩
  have h := core_arch env db
  rw [hc] at h
  cases err <;>
    simp_all [archiveIds_append, sendIds_append, archiveIds, sendIds,
      List.filter_append]

theorem revisar_caught (env : Env) (db : DB) (db1 : DB) (evs : List Event) (e : Err)
    (hc : revisarRegistrosCore env db = (db1, evs, some e)) :
    revisarRegistros env db = (db1, evs ++ [.logError]) := by
  simp [revisarRegistros, hc]

/-! ### Soundness of the send-coverage check -/

theorem checkSends_sound (tr : List Event) :
    ∀ (s : List Nat), checkSends s tr = true →
    ∀ (i : Nat) (dc : Nat) (mid : String) (m : Message),
      tr.get? i = some (.send dc mid m) →
      dc ∈ s ∨ ∃ j, j < i ∧ tr.get? j = some (.flagUpdate dc) := by
  induction tr with
  | nil =>
    intro s _ i dc mid m hi
    simp at hi
  | cons e rest ih =>
    intro s h i dc mid m hi
    cases i with
    | zero =>
      simp only [List.get?] at hi
      injection hi with hi
      subst hi
      simp only [checkSends, Bool.and_eq_true, decide_eq_true_eq] at h
      exact Or.inl h.1
    | succ i =>
      have hi' : rest.get? i = some (.send dc mid m) := hi
      cases e
      case flagUpdate d =>
        simp only [checkSends] at h
        rcases ih (d :: s) h i dc mid m hi' with hmem | ⟨j, hj, hjg⟩
        · rcases List.mem_cons.mp hmem with rfl | hmem2
          · exact Or.inr ⟨0, Nat.succ_pos _, rfl⟩
          · exact Or.inl hmem2
        · exact Or.inr ⟨j + 1, Nat.succ_lt_succ hj, hjg⟩
      case send d2 mid2 m2 =>
        simp only [checkSends, Bool.and_eq_true, decide_eq_true_eq] at h
        rcases ih s h.2 i dc mid m hi' with hmem | ⟨j, hj, hjg⟩
        · exact Or.inl hmem
        · exact Or.inr ⟨j + 1, Nat.succ_lt_succ hj, hjg⟩
      all_goals
        simp only [checkSends] at h
      all_goals
        rcases ih s h i dc mid m hi' with hmem | ⟨j, hj, hjg⟩
      all_goals
        first
        | exact Or.inl hmem
        | exact Or.inr ⟨j + 1, Nat.succ_lt_succ hj, hjg⟩

/-! ### Support for the claim theorems -/

/-- The archive tail of a fault-free row: skipped on an empty delivery
id, otherwise serialize, connect, append, close. -/
def colaArchivo (mid : String) : List Event :=
  if mid = "" then [.logNoArchive]
  else [.archiveStart mid, .rawSerialized, .imapConnect,
        .imapAppend "INBOX.Sent", .imapClose]

theorem pge_noArchFault (env : Env) (c : Ctrs) (mid : String)
    (hs : ∀ n, env.serialFail n = false) (hc : ∀ n, env.connFail n = false)
    (ha : ∀ n, env.appFail n = false) :
    (procesarGuardadoEnviados env c mid).1 = colaArchivo mid := by
  by_cases hm : mid = "" <;>
    simp [procesarGuardadoEnviados, generarRaw, guardarEnEnviados,
      hs, hc, ha, colaArchivo, hm]

theorem mem_aplicarUpds_flag (us : List Nat) (docs : List Documento) :
    ∀ d ∈ aplicarUpds us docs, d.doccon ∈ us → d.docenviado = .num 1 := by
  intro d hd hmem
  simp only [aplicarUpds, List.mem_map] at hd
  obtain ⟨d0, _, hdef⟩ := hd
  by_cases h0 : d0.doccon ∈ us
  · rw [← hdef]
    simp [h0, set1]
  · rw [← hdef] at hmem
    simp [h0] at hmem

theorem mem_aplicarUpds_unchanged (us : List Nat) (docs : List Documento) :
    ∀ d ∈ docs, d.doccon ∉ us → d ∈ aplicarUpds us docs := by
  intro d hd hnm
  have hmm :=
    List.mem_map_of_mem (fun d => if d.doccon ∈ us then set1 d else d) hd
  simp only [hnm, ite_false, if_neg] at hmm
  simpa [aplicarUpds] using hmm

theorem limpiar_ne_empty (xs : List Agenda) :
    ∀ e ∈ limpiarEmails xs, e ≠ "" := by
  intro e he
  simp only [limpiarEmails, List.mem_filterMap] at he
  obtain ⟨a, _, ha⟩ := he
  cases hae : a.ageema with
  | none => simp [hae] at ha
  | some v =>
    simp only [hae] at ha
    by_cases hv : v.trim = ""
    · simp [hv] at ha
    · simp only [hv, ite_false] at ha
      injection ha with ha
      rw [← ha]
      exact hv

/-- The sixteen lowercase hexadecimal characters. -/
def hexChars : List Char := "0123456789abcdef".toList

theorem hexDigit_mem (i : Fin 16) : hexDigit i.val ∈ hexChars := by
  have : ∀ i : Fin 16, decide (hexDigit i.val ∈ hexChars) = true := by decide
  exact of_decide_eq_true (this i)

theorem byteToHex_mem (b : Fin 256) :
    ∀ ch ∈ (byteToHex b).data, ch ∈ hexChars := by
  intro ch hch
  have h16 : b.val / 16 < 16 := by omega
  have h16b : b.val % 16 < 16 := Nat.mod_lt _ (by omega)
  simp only [byteToHex] at hch
  rcases List.mem_cons.mp hch with h | h2
  · subst h
    exact hexDigit_mem ⟨b.val / 16, h16⟩
  · rcases List.mem_cons.mp h2 with h | h3
    · subst h
      exact hexDigit_mem ⟨b.val % 16, h16b⟩
    · exact absurd h3 (List.not_mem_nil _)

theorem bytesToHex_length (bs : List (Fin 256)) :
    (bytesToHex bs).length = 2 * bs.length := by
  induction bs with
  | nil => rfl
  | cons b rest ih =>
    simp only [bytesToHex, String.length_append, ih, List.length_cons]
    have : (byteToHex b).length = 2 := rfl
    omega

theorem bytesToHex_mem (bs : List (Fin 256)) :
    ∀ ch ∈ (bytesToHex bs).data, ch ∈ hexChars := by
  induction bs with
  | nil => intro ch hch; simp [bytesToHex] at hch
  | cons b rest ih =>
    intro ch hch
    simp only [bytesToHex, String.data_append, List.mem_append] at hch
    rcases hch with h | h
    · exact byteToHex_mem b ch h
    · exact ih ch h

/-! ### Concrete fixtures -/

/-- A fault-free environment. -/
def envNF : Env :=
  { mailUser := "m@r.com"
    randBytesAt := fun _ => List.replicate 32 0
    nowAt := fun _ => 1000
    sendIdAt := fun _ => "mid1"
    scanQFail := fun _ => false
    insFail := fun _ => false
    updFail := fun _ => false
    recipFail := fun _ => false
    sendFail := fun _ => false
    serialFail := fun _ => false
    connFail := fun _ => false
    appFail := fun _ => false }

/-- A fault-free environment whose random source yields different bytes,
for a second scan. -/
def envNF2 : Env := { envNF with randBytesAt := fun _ => List.replicate 32 1 }

/-- Every archive-side operation fails; storage and dispatch are fine. -/
def envAF : Env :=
  { envNF with serialFail := fun _ => true, connFail := fun _ => true,
               appFail := fun _ => true }

/-- Every send throws. -/
def envSF : Env := { envNF with sendFail := fun _ => true }

/-- Every flag update throws. -/
def envUF : Env := { envNF with updFail := fun _ => true }

/-- Every scan query throws. -/
def envQF : Env := { envNF with scanQFail := fun _ => true }

theorem noFaultCore_envNF : noFaultCore envNF :=
  ⟨fun _ => rfl, fun _ => rfl, fun _ => rfl, fun _ => rfl, fun _ => rfl⟩

theorem noFault_envNF : noFault envNF :=
  ⟨noFaultCore_envNF, fun _ => rfl, fun _ => rfl, fun _ => rfl⟩

theorem noFaultCore_envNF2 : noFaultCore envNF2 :=
  ⟨fun _ => rfl, fun _ => rfl, fun _ => rfl, fun _ => rfl, fun _ => rfl⟩

theorem noFaultCore_envAF : noFaultCore envAF :=
  ⟨fun _ => rfl, fun _ => rfl, fun _ => rfl, fun _ => rfl, fun _ => rfl⟩

/-- A pending invoice dated after the floor. -/
def doc500 : Documento :=
  { doccon := 500, docclicod := "C1", docenviado := .num 0, doctip := "FC"
    doceje := 2025, docser := "A", docnum := 7, docfec := 20250910
    docimptot := 123, docusuariocorreo := "own@x" }

/-- Its owner. -/
def userC1 : Usuario := { id := 9, usuclicod := "C1", name := some "Ana", email := "a@x" }

def fich1 : Fichero := ⟨500, "f1.pdf"⟩

def fich2 : Fichero := ⟨500, "f2.pdf"⟩

/-- One pending invoice with a single attachment row and no
subscription entries. -/
def dbW : DB :=
  { documentos := [doc500], users := [userC1], ficheros := [fich1]
    agenda := [], accessTokens := [] }

/-- The same invoice with two attachment rows. -/
def dbDup : DB :=
  { documentos := [doc500], users := [userC1], ficheros := [fich1, fich2]
    agenda := [], accessTokens := [] }

/-- An empty database. -/
def dbVacia : DB :=
  { documentos := [], users := [], ficheros := [], agenda := [], accessTokens := [] }

/-- The joined result row of `dbW`. -/
def rowW : Row := mkRow doc500 userC1 fich1

/-! ### Claim theorems -/

/-- C1, counterexample: the claim says at most one notification email is
generated per document per pass even with several attachment rows, but a
pending, date-eligible invoice with two attachment rows yields two result
rows and two sends for the same document key in a single fault-free pass. -/
theorem claim1_counterexample :
    pendiente doc500.docenviado = true ∧
    dateFloor ≤ doc500.docfec ∧
    (dbDup.ficheros.filter (fun f => f.qdocumento_id == doc500.doccon)).length = 2 ∧
    countSends 500 (revisarRegistros envNF dbDup).2 = 2 ∧
    ¬ countSends 500 (revisarRegistros envNF dbDup).2 ≤ 1 := by
  decide

/-- C1, amended: in a fault-free pass every document gets exactly one
notification email per result-set row (so one per attachment row per
matching user row, not one per document), and every document with at
least one result row ends the pass with its notified flag set to 1. -/
theorem claim1_amended (env : Env) (db : DB) (h : noFaultCore env) (dc : Nat) :
    countSends dc (revisarRegistros env db).2 =
      ((resultado db).filter (fun r => r.doccon = dc)).length ∧
    (0 < ((resultado db).filter (fun r => r.doccon = dc)).length →
      ∀ d ∈ (revisarRegistros env db).1.documentos,
        d.doccon = dc → d.docenviado = .num 1) := by
  obtain ⟨hce, hcc, hcu⟩ := core_nf env db h
  constructor
  · rw [revisar_countSends, hcc dc]
  · intro hpos d hd hdc
    obtain ⟨hdoc, _, _, _, _⟩ := core_evol env db
    rw [revisar_db, hdoc, hcu] at hd
    have hne : (resultado db).filter (fun r => decide (r.doccon = dc)) ≠ [] := by
      intro hnil
      rw [hnil] at hpos
      exact absurd hpos (by simp)
    obtain ⟨r, hr⟩ := List.exists_mem_of_ne_nil _ hne
    have hr2 := List.mem_filter.mp hr
    have hdcmem : dc ∈ (resultado db).map (fun r => r.doccon) :=
      List.mem_map.mpr ⟨r, hr2.1, of_decide_eq_true hr2.2⟩
    exact mem_aplicarUpds_flag _ _ d hd (hdc ▸ hdcmem)

/-- C1, witness for the amended theorem at a concrete fault-free pass. -/
theorem claim1_witness :
    noFaultCore envNF ∧
    countSends 500 (revisarRegistros envNF dbDup).2 =
      ((resultado dbDup).filter (fun r => r.doccon = 500)).length :=
  ⟨⟨fun _ => rfl, fun _ => rfl, fun _ => rfl, fun _ => rfl, fun _ => rfl⟩,
   (claim1_amended envNF dbDup
     ⟨fun _ => rfl, fun _ => rfl, fun _ => rfl, fun _ => rfl, fun _ => rfl⟩ 500).1⟩

/-- C2, counterexample: the claim says every row of every type resolves
recipients and renders before marking the document notified, but in the
invoice pass of a concrete fault-free scan the flag update (trace index
4) precedes the recipient query (trace index 6). -/
theorem claim2_counterexample :
    ((revisarRegistros envNF dbW).2.findIdx
      (fun e => match e with | .flagUpdate _ => true | _ => false)) = 4 ∧
    ((revisarRegistros envNF dbW).2.findIdx
      (fun e => match e with | .recipientQuery _ _ => true | _ => false)) = 6 ∧
    (revisarRegistros envNF dbW).2.length = 13 := by
  decide

/-- C2, amended: per row the steps run in this order — for invoices:
issue credential, mark NOTIFIED, render, resolve recipients, send,
archive-if-delivery-id; for quotes and delivery notes: issue credential,
resolve recipients, render, mark NOTIFIED, send, archive-if-delivery-id. -/
theorem claim2_amended (env : Env) (c : Ctrs) (db : DB) (row : Row)
    (h : noFault env) :
    (procesarFila .FC env c db row).evs =
      [.tokenInsert row.id (tokenEn env c) (expiraEn env c), .flagUpdate row.doccon,
       .render row.doccon (htmlDe .FC row (tokenEn env c)),
       .recipientQuery row.docclicod (codesDe .FC),
       .send row.doccon (env.sendIdAt c.nSend) (msgEn .FC env c db row)] ++
        colaArchivo (env.sendIdAt c.nSend) ∧
    (procesarFila .PC env c db row).evs =
      [.tokenInsert row.id (tokenEn env c) (expiraEn env c),
       .recipientQuery row.docclicod (codesDe .PC),
       .render row.doccon (htmlDe .PC row (tokenEn env c)), .flagUpdate row.doccon,
       .send row.doccon (env.sendIdAt c.nSend) (msgEn .PC env c db row)] ++
        colaArchivo (env.sendIdAt c.nSend) ∧
    (procesarFila .AC env c db row).evs =
      [.tokenInsert row.id (tokenEn env c) (expiraEn env c),
       .recipientQuery row.docclicod (codesDe .AC),
       .render row.doccon (htmlDe .AC row (tokenEn env c)), .flagUpdate row.doccon,
       .send row.doccon (env.sendIdAt c.nSend) (msgEn .AC env c db row)] ++
        colaArchivo (env.sendIdAt c.nSend) := by
  obtain ⟨hcore, hs, hcn, ha⟩ := h
  refine ⟨?_, ?_, ?_⟩ <;>
  · rw [fila_nf _ env c db row hcore]
    simp [evsNF, pge_noArchFault env _ _ hs hcn ha]

/-- C2, witness for the amended theorem at a concrete row. -/
theorem claim2_witness :
    noFault envNF ∧ (procesarFila .FC envNF ctrs0 dbW rowW).evs.length = 10 := by
  have hnf : noFault envNF :=
    ⟨⟨fun _ => rfl, fun _ => rfl, fun _ => rfl, fun _ => rfl, fun _ => rfl⟩,
     fun _ => rfl, fun _ => rfl, fun _ => rfl⟩
  refine ⟨hnf, ?_⟩
  rw [(claim2_amended envNF ctrs0 dbW rowW hnf).1]
  decide

/-- C3: in every trace of every scan invocation, whatever the fault
pattern, every send event for a document is preceded by the flag-update
event of that same document: the notified flag is flipped strictly before
the send is attempted. -/
theorem claim3_flag_before_send (env : Env) (db : DB) (i dc : Nat) (mid : String)
    (m : Message)
    (hsend : ((revisarRegistros env db).2).get? i = some (.send dc mid m)) :
    ∃ j, j < i ∧ ((revisarRegistros env db).2).get? j = some (.flagUpdate dc) := by
  have hcs := revisar_checkSends env db []
  rcases checkSends_sound _ [] hcs i dc mid m hsend with hmem | hgood
  · exact absurd hmem (List.not_mem_nil _)
  · exact hgood

/-- The message the concrete fault-free invoice row sends. -/
def msgW : Message := msgEn .FC envNF ctrs0 dbW rowW

/-- C3, witness at the send event of a concrete scan. -/
theorem claim3_witness :
    ((revisarRegistros envNF dbW).2).get? 7 = some (.send 500 "mid1" msgW) ∧
    ∃ j, j < 7 ∧ ((revisarRegistros envNF dbW).2).get? j =
      some (.flagUpdate 500) :=
  ⟨by decide, claim3_flag_before_send envNF dbW 7 500 "mid1" msgW (by decide)⟩

/-- C4: the message a fault-free row sends goes to the cleaned
subscription emails of the document's client and the type-specific or
shared purpose codes, comma-joined in query order, every one non-empty
after trimming; when no such email exists, it goes exactly to the
document owner's primary email. -/
theorem claim4_recipients (t : Tipo) (env : Env) (c : Ctrs) (db : DB) (row : Row)
    (h : noFaultCore env) :
    (∃ mid, Event.send row.doccon mid (msgEn t env c db row) ∈
      (procesarFila t env c db row).evs) ∧
    (msgEn t env c db row).toAddr = recipientsDe (emailsDe t db row) row.email ∧
    (emailsDe t db row ≠ [] →
      (msgEn t env c db row).toAddr =
        String.intercalate ", " (emailsDe t db row)) ∧
    (emailsDe t db row = [] → (msgEn t env c db row).toAddr = row.email) ∧
    (∀ e ∈ emailsDe t db row, e ≠ "") := by
  refine ⟨⟨env.sendIdAt c.nSend, ?_⟩, rfl, ?_, ?_, limpiar_ne_empty _⟩
  · rw [fila_nf t env c db row h]
    cases t <;> simp [evsNF]
  · intro hne
    simp [msgEn, mensajeDe, recipientsDe, List.length_pos.mpr hne]
  · intro he
    simp [msgEn, mensajeDe, recipientsDe, he]

/-- C4, witness: with zero subscription entries the concrete invoice
message goes exactly to the owner's primary email. -/
theorem claim4_witness :
    noFaultCore envNF ∧ (msgEn .FC envNF ctrs0 dbW rowW).toAddr = "a@x" := by
  refine ⟨⟨fun _ => rfl, fun _ => rfl, fun _ => rfl, fun _ => rfl, fun _ => rfl⟩, ?_⟩
  have h := (claim4_recipients .FC envNF ctrs0 dbW rowW
    ⟨fun _ => rfl, fun _ => rfl, fun _ => rfl, fun _ => rfl, fun _ => rfl⟩).2.2.2.1
    (by decide)
  exact h.trans (by decide)

/-- C5: in every trace of every scan invocation, whatever the fault
pattern, the archive step is entered exactly once per send that reported
a non-empty delivery id, in order: a send that throws produces no send
event and no archive attempt, and a send with an empty delivery id
produces no archive attempt. -/
theorem claim5_archive_iff (env : Env) (db : DB) :
    archiveIds (revisarRegistros env db).2 =
      (sendIds (revisarRegistros env db).2).filter (fun x => !(x == "")) :=
  revisar_arch env db

/-- C6: with fault-free storage and dispatch, arbitrary failures in the
archive step (serialize, connect, append) never escape: the scan core
reports no error, the final flag states and the per-document send counts
are exactly those of a fault-free pass, the archive step performs no flag
update, and the connection-closing step is always the last event of the
mailbox append helper. -/
theorem claim6_archive_isolation (env : Env) (db : DB) (c : Ctrs) (mid : String)
    (h : noFaultCore env) :
    (revisarRegistrosCore env db).2.2 = none ∧
    (revisarRegistros env db).1.documentos =
      aplicarUpds ((resultado db).map (fun r => r.doccon)) db.documentos ∧
    (∀ dc, countSends dc (revisarRegistros env db).2 =
      ((resultado db).filter (fun r => r.doccon = dc)).length) ∧
    updsDe (procesarGuardadoEnviados env c mid).1 = [] ∧
    ((guardarEnEnviados env c).1).getLast? = some .imapClose := by
  obtain ⟨hce, hcc, hcu⟩ := core_nf env db h
  obtain ⟨hdoc, _, _, _, _⟩ := core_evol env db
  refine ⟨hce, ?_, fun dc => ?_, pge_updsDe env c mid, guardar_getLast env c⟩
  · rw [revisar_db, hdoc, hcu]
  · rw [revisar_countSends, hcc dc]

/-- C6, witness: an environment where every archive operation fails still
completes the scan core without error. -/
theorem claim6_witness :
    noFaultCore envAF ∧ (revisarRegistrosCore envAF dbW).2.2 = none :=
  ⟨⟨fun _ => rfl, fun _ => rfl, fun _ => rfl, fun _ => rfl, fun _ => rfl⟩,
   (claim6_archive_isolation envAF dbW ctrs0 "m"
     ⟨fun _ => rfl, fun _ => rfl, fun _ => rfl, fun _ => rfl, fun _ => rfl⟩).1⟩

/-- C7: when any storage or dispatch operation throws inside the scan
core, the whole invocation stops there, the outer catch logs the error
and the scan returns normally with exactly the events emitted so far; the
database keeps every already-applied flag update (those documents read
1), documents with no recorded flag update are untouched and so remain
pending, the other tables are unchanged, and the token table only grew. -/
theorem claim7_storage_abort (env : Env) (db db1 : DB) (evs : List Event) (e : Err)
    (hc : revisarRegistrosCore env db = (db1, evs, some e)) :
    revisarRegistros env db = (db1, evs ++ [.logError]) ∧
    db1.documentos = aplicarUpds (updsDe evs) db.documentos ∧
    db1.users = db.users ∧ db1.ficheros = db.ficheros ∧ db1.agenda = db.agenda ∧
    (∃ nt, db1.accessTokens = db.accessTokens ++ nt) ∧
    (∀ d ∈ db.documentos, d.doccon ∉ updsDe evs → d ∈ db1.documentos) ∧
    (∀ d ∈ db1.documentos, d.doccon ∈ updsDe evs → d.docenviado = .num 1) := by
  have hev := core_evol env db
  rw [hc] at hev
  obtain ⟨h1, h2, h3, h4, h5⟩ := hev
  refine ⟨revisar_caught env db db1 evs e hc, h1, h2, h3, h4, h5, ?_, ?_⟩
  · intro d hd hnm
    rw [h1]
    exact mem_aplicarUpds_unchanged _ _ d hd hnm
  · intro d hd hmem
    rw [h1] at hd
    exact mem_aplicarUpds_flag _ _ d hd hmem

/-- C7, witness: a failing scan query aborts the whole invocation, which
returns normally with just the logged error and an untouched database. -/
theorem claim7_witness :
    revisarRegistrosCore envQF dbW = (dbW, [], some .storage) ∧
    revisarRegistros envQF dbW = (dbW, [.logError]) :=
  ⟨rfl, by
    have h := (claim7_storage_abort envQF dbW dbW [] .storage rfl).1
    simpa using h⟩

/-- C8: when the three scan queries succeed and all three result sets are
empty, the invocation logs the no-records message and returns with no
other effect: its whole trace is the three queries and that log line, so
zero credential inserts, recipient queries, flag updates, sends and
archive attempts, and the database is returned unchanged. -/
theorem claim8_noop (env : Env) (db : DB)
    (h0 : env.scanQFail 0 = false) (h1 : env.scanQFail 1 = false)
    (h2 : env.scanQFail 2 = false)
    (hfc : consulta db "FC" = []) (hpc : consulta db "PC" = [])
    (hac : consulta db "AC" = []) :
    revisarRegistros env db =
      (db, [.scanQuery "FC", .scanQuery "PC", .scanQuery "AC", .logNoRecords]) := by
  simp [revisarRegistros, revisarRegistrosCore, h0, h1, h2, hfc, hpc, hac]

/-- C8, witness at an empty database. -/
theorem claim8_witness :
    consulta dbVacia "FC" = [] ∧
    revisarRegistros envNF dbVacia =
      (dbVacia, [.scanQuery "FC", .scanQuery "PC", .scanQuery "AC",
        .logNoRecords]) :=
  ⟨rfl, claim8_noop envNF dbVacia rfl rfl rfl rfl rfl rfl⟩

/-- C9: every fault-free row turns the 32 random bytes of its credential
into a 64-character lowercase-hex token, computes an expiry exactly 7
days (in milliseconds) after issuance, persists exactly one new
access-token row for the owning user id, inserts it as its first
operation, and embeds in the rendered message the link base URL plus
`/documentos/` plus the per-type segment plus `?token=` plus that token. -/
theorem claim9_token (env : Env) (c : Ctrs) (db : DB) (row : Row)
    (h : noFaultCore env) (hlen : (env.randBytesAt c.nRow).length = 32) :
    (tokenEn env c).length = 64 ∧
    (∀ ch ∈ (tokenEn env c).data, ch ∈ hexChars) ∧
    expiraEn env c = env.nowAt c.nRow + 7 * 24 * 60 * 60 * 1000 ∧
    ∀ t : Tipo,
      (procesarFila t env c db row).db.accessTokens =
        db.accessTokens ++ [⟨row.id, tokenEn env c, expiraEn env c⟩] ∧
      ((procesarFila t env c db row).evs).head? =
        some (.tokenInsert row.id (tokenEn env c) (expiraEn env c)) ∧
      linkDe t (tokenEn env c) =
        "https://gabinetetic.com/documentos/" ++ segmento t ++
          ("?token=" ++ tokenEn env c) ∧
      Event.render row.doccon (htmlDe t row (tokenEn env c)) ∈
        (procesarFila t env c db row).evs := by
  refine ⟨?_, bytesToHex_mem _, rfl, fun t => ?_⟩
  · rw [tokenEn, bytesToHex_length, hlen]
  · rw [fila_nf t env c db row h]
    refine ⟨by simp [dbTras], ?_, ?_, ?_⟩
    · cases t <;> simp [evsNF]
    · cases t <;> rfl
    · cases t <;> simp [evsNF, htmlDe]

/-- C9, witness at a concrete row. -/
theorem claim9_witness :
    (envNF.randBytesAt 0).length = 32 ∧ (tokenEn envNF ctrs0).length = 64 :=
  ⟨by decide,
   (claim9_token envNF ctrs0 dbW rowW
     ⟨fun _ => rfl, fun _ => rfl, fun _ => rfl, fun _ => rfl, fun _ => rfl⟩
     (by decide)).1⟩

/-- C10, counterexample: after a send failure the inserted token row does
persist, but the claim's "reprocessed with a fresh additional token on
the next scan" is false: the send fails after the flag update, so the
document is already marked 1, the next scan's query is empty, it is a
no-op, and no second token appears. -/
theorem claim10_counterexample :
    (revisarRegistros envSF dbW).1.accessTokens.length = 1 ∧
    (revisarRegistros envSF dbW).1.documentos =
      [{ doc500 with docenviado := .num 1 }] ∧
    consulta (revisarRegistros envSF dbW).1 "FC" = [] ∧
    (revisarRegistros envNF2 (revisarRegistros envSF dbW).1).1.accessTokens.length
      = 1 ∧
    (revisarRegistros envNF2 (revisarRegistros envSF dbW).1).2 =
      [.scanQuery "FC", .scanQuery "PC", .scanQuery "AC", .logNoRecords] := by
  decide

/-- C10, amended: token insertion is indeed not atomic — no scan ever
removes an access-token row, so a row aborted after its insert leaves the
token behind; and when the failure comes before the flag update (here: at
the update itself), the document stays pending and the next scan
reprocesses it with a fresh, distinct, additional token.  When the
failure comes after the flag update (for example at the send), the
document stays marked notified and is not reprocessed. -/
theorem claim10_amended :
    (∀ (env : Env) (db : DB), ∃ nt,
      (revisarRegistros env db).1.accessTokens = db.accessTokens ++ nt) ∧
    (revisarRegistros envUF dbW).1.accessTokens.length = 1 ∧
    (∀ d ∈ (revisarRegistros envUF dbW).1.documentos,
      pendiente d.docenviado = true) ∧
    (revisarRegistros envNF2 (revisarRegistros envUF dbW).1).1.accessTokens.length
      = 2 ∧
    ((revisarRegistros envNF2 (revisarRegistros envUF dbW).1).1.accessTokens.map
      (fun a => a.token)).Nodup := by
  refine ⟨fun env db => ?_, by decide, by decide, by decide, by decide⟩
  obtain ⟨_, _, _, _, h5⟩ := core_evol env db
  rw [revisar_db]
  exact h5

end SendEmail
